import Mathlib

/-!
Verification of the fpl-auto-message repository against its specification.

The repository consists of three Python modules. `src/fetch_fpl.py` (class
`FetchData`) and `src/league.py` (class `League`) are near-duplicate clients of
the Fantasy Premier League REST API; `src/fpl_auto_message.py` is a stub that
only prints placeholder text. The shallow embedding below models the pure
data transformations of the two real modules. Network fetches are modelled by
passing the already-decoded upstream data as parameters:

* the rows of `data_json["standings"]["results"]` together with
  `data_json["league"]["name"]` (the standings endpoint),
* a partial map from manager id to the `data_json["current"]` history list
  (the history endpoint; `none` models a response without a `"current"` key,
  Python raises `KeyError` there),
* the list of parsed `deadline_time` timestamps of `data_json["events"]`
  (the bootstrap-static endpoint), reduced to the calendar fields that
  `get_gameweeks_for_month` inspects.

Fallible Python code is embedded as `Except PyExc _`, with `PyExc` naming the
exception class the corresponding Python expression raises.
-/

/-- The Python exception classes that the repository's code can raise or
catch: `KeyError` (missing dict key), `json.JSONDecodeError` (malformed
body in `json.loads`), `IndexError` (list index out of range), and
`requests.exceptions.Timeout` (an upstream call exceeding `timeout=10`). -/
inductive PyExc where
  | keyError
  | jsonDecodeError
  | indexError
  | timeout
  deriving DecidableEq, Repr, Fintype

/-- One row of `data_json["standings"]["results"]` as consumed by the code
(the upstream row also carries a `rank` and further fields; the fields below
are the ones read by `get_players_in_league` and `get_league_standings`). -/
structure StandingRow where
  rank : Int
  player_name : String
  entry_name : String
  entry : Int
  total : Int
  deriving DecidableEq, Repr

/-- One record of `data_json["current"]` from the manager-history endpoint:
`event` is the gameweek id, `points` the score of that gameweek,
`total_points` the cumulative total after it. -/
structure GWRecord where
  event : Int
  points : Int
  total_points : Int
  deriving DecidableEq, Repr

/-- The calendar fields of a parsed `deadline_time` timestamp that
`get_gameweeks_for_month` inspects (`v.month` and `v.year` on the
`datetime` produced by `isoparse`). -/
structure EventDate where
  month : Int
  year : Int
  deriving DecidableEq, Repr

/-- The dict built by `get_players_in_league` for each standings row:
the projection of the row to `entry`, `player_name`, `entry_name`, plus the
denormalised `league_name` (src/fetch_fpl.py lines 120-127, identical in
src/league.py lines 103-110). -/
structure PlayerInfo where
  entry : Int
  player_name : String
  entry_name : String
  league_name : String
  deriving DecidableEq, Repr

/-- A player dict after the scoring loop of `get_manager_of_the_month` has
added the `month_points` key. -/
structure ScoredPlayer where
  info : PlayerInfo
  month_points : Int
  deriving DecidableEq, Repr

/-- One output entry of `get_manager_of_the_month`: the rank together with
the fields interpolated into each line (fetch_fpl.py lines 84-89) /
kept by the `wanted_keys` projection (league.py lines 78-83). -/
structure RankedPlayer where
  rank : Nat
  player_name : String
  entry_name : String
  month_points : Int
  deriving DecidableEq, Repr

/-- `get_players_in_league` (src/fetch_fpl.py lines 100-131, identical in
src/league.py lines 86-114): maps every standings row to its projection,
attaching the league's display name to each entry. -/
def get_players_in_league (standings_full : List StandingRow)
    (league_name : String) : List PlayerInfo :=
  standings_full.map (fun p => ⟨p.entry, p.player_name, p.entry_name, league_name⟩)

/-- `get_gameweek_points` (src/fetch_fpl.py lines 133-162, identical in
src/league.py lines 116-144). `history player_id` is the decoded
`data_json["current"]`; `none` models a history response without that key,
on which Python raises `KeyError`. With the sentinel `[0]` the code returns
`all_gameweek_results[-1]["total_points"]` (an `IndexError` on an empty
history); otherwise it sums `points` over the records whose `event` is a
member of the `gameweek` list. -/
def get_gameweek_points (history : Int → Option (List GWRecord))
    (player_id : Int) (gameweek : List Int) : Except PyExc Int :=
  match history player_id with
  | none => Except.error PyExc.keyError
  | some all_gameweek_results =>
    if gameweek = [0] then
      match all_gameweek_results.getLast? with
      | none => Except.error PyExc.indexError
      | some lastRec => Except.ok lastRec.total_points
    else
      Except.ok (((all_gameweek_results.filter
        (fun e => decide (e.event ∈ gameweek))).map (fun e => e.points)).sum)

/-- `get_gameweeks_for_month` (src/fetch_fpl.py lines 164-203, identical in
src/league.py lines 146-184). The code builds `dates_dict = {k : dates[k-1]}`
for `k = 1 .. len(dates)` (insertion order ascending in `k`), filters the
dict by calendar month and year of the deadline, and returns the list of
surviving keys, i.e. the 1-based positions of the matching events. -/
def get_gameweeks_for_month (events_full : List EventDate)
    (month year : Int) : List Int :=
  (events_full.enum.filter
      (fun p => decide (p.2.month = month) && decide (p.2.year = year))).map
    (fun p => (p.1 : Int) + 1)

/-- One step of the scoring loop of `get_manager_of_the_month`
(src/fetch_fpl.py lines 74-78, src/league.py lines 67-71): compute
`get_gameweek_points` for each player in order, attaching the result as
`month_points`; the first raised exception aborts the loop. -/
def score_players (history : Int → Option (List GWRecord))
    (gameweeks : List Int) : List PlayerInfo → Except PyExc (List ScoredPlayer)
  | [] => Except.ok []
  | p :: ps =>
    match get_gameweek_points history p.entry gameweeks with
    | Except.error e => Except.error e
    | Except.ok pts =>
      match score_players history gameweeks ps with
      | Except.error e => Except.error e
      | Except.ok rest => Except.ok (⟨p, pts⟩ :: rest)

/-- One insertion step of the stable descending sort. Models Python's stable
`sorted(player_info, key=lambda d: d["month_points"], reverse=True)`
(src/fetch_fpl.py lines 80-82, src/league.py line 73): `x` is placed before
the first element whose score is `≤` its own, so elements with equal scores
keep their original relative order. (`fetch_fpl.py` stores `month_points`
as `str(...)` and sorts by `int(...)`; since `int(str(n)) = n` the key is
the integer score in both files.) -/
def insert_desc (x : ScoredPlayer) : List ScoredPlayer → List ScoredPlayer
  | [] => [x]
  | y :: ys =>
    if y.month_points ≤ x.month_points then x :: y :: ys else y :: insert_desc x ys

/-- The stable descending sort by `month_points`. A stable sort's output is
uniquely determined by the ordering and the input order, so insertion sort
here is observationally the same list as Python's stable `sorted(...,
reverse=True)`. -/
def sort_desc : List ScoredPlayer → List ScoredPlayer
  | [] => []
  | x :: xs => insert_desc x (sort_desc xs)

/-- Rank assignment of `FetchData.get_manager_of_the_month`
(src/fetch_fpl.py lines 84-89): each line carries
`player_info.index(player) + 1`, the first index of an `==`-equal dict in
the sorted list. -/
def rank_by_index (player_info : List ScoredPlayer) : List RankedPlayer :=
  player_info.map (fun p =>
    ⟨player_info.indexOf p + 1, p.info.player_name, p.info.entry_name, p.month_points⟩)

/-- Rank assignment of `League.get_manager_of_the_month` (src/league.py
lines 75-76): `_info["rank"] = player_info.index(_info) + 1`, evaluated
while mutating each `_info` in place. Entries already processed carry a
`"rank"` key and therefore compare `!=` to the not-yet-processed `_info`,
so `index` always finds `_info` itself first: the assigned rank is the
positional index plus one, even for fully duplicated entries. -/
def rank_by_position (player_info : List ScoredPlayer) : List RankedPlayer :=
  player_info.enum.map (fun p =>
    ⟨p.1 + 1, p.2.info.player_name, p.2.info.entry_name, p.2.month_points⟩)

namespace FetchData

/-- `FetchData.get_manager_of_the_month` (src/fetch_fpl.py lines 51-96):
fetches the full roster, resolves the month's gameweeks, scores every
roster member, sorts all of them descending by month score (stably), builds
one ranked line per sorted player, and only truncates to `position` inside
the final join. The title line reads `player_info[0]["league_name"]` from
the sorted list, an `IndexError` when the roster is empty. The source
returns the rendered string; the embedding returns its content: the league
name interpolated into the title and the entries of the joined lines. -/
def get_manager_of_the_month (standings_full : List StandingRow)
    (league_name : String) (history : Int → Option (List GWRecord))
    (events_full : List EventDate) (position : Nat) (month year : Int) :
    Except PyExc (String × List RankedPlayer) :=
  let player_info := get_players_in_league standings_full league_name
  let gameweek_dates_for_month := get_gameweeks_for_month events_full month year
  match score_players history gameweek_dates_for_month player_info with
  | Except.error e => Except.error e
  | Except.ok scored =>
    let sorted := sort_desc scored
    let standings := rank_by_index sorted
    match sorted with
    | [] => Except.error PyExc.indexError
    | p0 :: _ => Except.ok (p0.info.league_name, standings.take position)

end FetchData

namespace League

/-- `League.get_manager_of_the_month` (src/league.py lines 44-84): unlike
the `FetchData` variant, the roster is truncated to the first `position`
entries BEFORE scoring (`self.get_players_in_league()[:position]`, line 64);
the truncated roster is then scored, sorted descending, ranked positionally,
and projected to `wanted_keys`. -/
def get_manager_of_the_month (standings_full : List StandingRow)
    (league_name : String) (history : Int → Option (List GWRecord))
    (events_full : List EventDate) (position : Nat) (month year : Int) :
    Except PyExc (List RankedPlayer) :=
  let player_info := (get_players_in_league standings_full league_name).take position
  match score_players history (get_gameweeks_for_month events_full month year)
      player_info with
  | Except.error e => Except.error e
  | Except.ok scored => Except.ok (rank_by_position (sort_desc scored))

end League

/-- The abstract error kinds of spec section 7. -/
inductive ErrorKind where
  | invalidLeagueId
  | managerNotFound
  | scheduleUnavailable
  | upstreamTimeout
  deriving DecidableEq, Repr, Fintype

/-- The Python exception classes through which each abstract error kind
manifests in this code base: a 404/malformed standings body makes
`json.loads` raise `JSONDecodeError` or `data_json["standings"]` /
`data_json["league"]` raise `KeyError`; a manager with no history makes
`json.loads` or `data_json["current"]` (src/fetch_fpl.py line 152) raise
the same two classes; likewise a failed bootstrap fetch at
`data_json["events"]` (line 187); a call exceeding `timeout=10` raises
`requests.exceptions.Timeout`. -/
def raised_exceptions : ErrorKind → List PyExc
  | ErrorKind.invalidLeagueId => [PyExc.keyError, PyExc.jsonDecodeError]
  | ErrorKind.managerNotFound => [PyExc.keyError, PyExc.jsonDecodeError]
  | ErrorKind.scheduleUnavailable => [PyExc.keyError, PyExc.jsonDecodeError]
  | ErrorKind.upstreamTimeout => [PyExc.timeout]

/-- The exception classes caught by the module-level loop of
src/fetch_fpl.py line 213: `except (KeyError, json.JSONDecodeError)`. -/
def cli_catches : PyExc → Bool
  | PyExc.keyError => true
  | PyExc.jsonDecodeError => true
  | _ => false

/-- Outcome of one iteration of the module-level `while True` loop
(src/fetch_fpl.py lines 208-217). -/
inductive LoopOutcome where
  | printed (s : String × List RankedPlayer)
  | reprompt
  | fatal (e : PyExc)
  deriving DecidableEq, Repr

/-- One iteration of the CLI loop: a successful report is printed and the
loop breaks; a raised exception is either caught by the `except` clause
(printing the invalid-id message and re-prompting for a league id) or
propagates out of the program uncaught. -/
def cli_loop_step (attempt : Except PyExc (String × List RankedPlayer)) :
    LoopOutcome :=
  match attempt with
  | Except.ok s => LoopOutcome.printed s
  | Except.error e =>
    if cli_catches e then LoopOutcome.reprompt else LoopOutcome.fatal e

/-- A calendar instant, reduced to the fields read via
`datetime.now().strftime("%m")` / `strftime("%Y")`. -/
structure Clock where
  month : Int
  year : Int
  deriving DecidableEq, Repr

/-- The default values of the `month`/`year` parameters of
`get_manager_of_the_month` and `get_gameweeks_for_month`. Python evaluates
default-argument expressions once, when the enclosing `def` is executed at
class-definition (module-import) time, so these hold the clock reading of
module load, not of any later call. -/
structure ModuleDefaults where
  default_month : Int
  default_year : Int
  deriving DecidableEq, Repr

/-- Evaluation of `datetime.now().strftime("%m")` / `("%Y")` in the `def`
headers (src/fetch_fpl.py lines 54-55 and 166-167, src/league.py lines
47-48 and 148-149) at module-load time. `strftime` yields strings and the
body applies `int(...)`; `int(strftime(...))` is the calendar number
itself, so the stored defaults are modelled as the numbers. -/
def module_load (now : Clock) : ModuleDefaults :=
  ⟨now.month, now.year⟩

/-- A call of `get_gameweeks_for_month` with `month` and `year` omitted, at
call time `_call_time`: the stored definition-time defaults are used; the
clock at call time does not enter the computation. -/
def get_gameweeks_for_month_omitted (defaults : ModuleDefaults)
    (_call_time : Clock) (events_full : List EventDate) : List Int :=
  get_gameweeks_for_month events_full defaults.default_month defaults.default_year

/-- A call of `FetchData.get_manager_of_the_month` with `month` and `year`
omitted, at call time `_call_time`: likewise uses the stored
definition-time defaults. -/
def get_manager_of_the_month_omitted (defaults : ModuleDefaults)
    (_call_time : Clock) (standings_full : List StandingRow)
    (league_name : String) (history : Int → Option (List GWRecord))
    (events_full : List EventDate) (position : Nat) :
    Except PyExc (String × List RankedPlayer) :=
  FetchData.get_manager_of_the_month standings_full league_name history
    events_full position defaults.default_month defaults.default_year

/-! ### Properties of the stable descending sort -/

theorem insert_desc_perm (x : ScoredPlayer) (l : List ScoredPlayer) :
    (insert_desc x l).Perm (x :: l) := by
  induction l with
  | nil => simp [insert_desc]
  | cons y ys ih =>
    by_cases h : y.month_points ≤ x.month_points
    · simp [insert_desc, h]
    · simp only [insert_desc, if_neg h]
      exact (ih.cons y).trans (List.Perm.swap x y ys)

theorem sort_desc_perm (l : List ScoredPlayer) : (sort_desc l).Perm l := by
  induction l with
  | nil => simp [sort_desc]
  | cons x xs ih => exact (insert_desc_perm x (sort_desc xs)).trans (ih.cons x)

theorem mem_insert_desc {z x : ScoredPlayer} {l : List ScoredPlayer} :
    z ∈ insert_desc x l ↔ z = x ∨ z ∈ l := by
  simpa using (insert_desc_perm x l).mem_iff

theorem insert_desc_pairwise {x : ScoredPlayer} {l : List ScoredPlayer}
    (h : l.Pairwise (fun a b => b.month_points ≤ a.month_points)) :
    (insert_desc x l).Pairwise (fun a b => b.month_points ≤ a.month_points) := by
  induction l with
  | nil => simp [insert_desc]
  | cons y ys ih =>
    rcases List.pairwise_cons.mp h with ⟨hy, hys⟩
    by_cases hc : y.month_points ≤ x.month_points
    · simp only [insert_desc, if_pos hc]
      refine List.pairwise_cons.mpr ⟨?_, h⟩
      intro z hz
      rcases List.mem_cons.mp hz with rfl | hz
      · exact hc
      · exact le_trans (hy z hz) hc
    · simp only [insert_desc, if_neg hc]
      refine List.pairwise_cons.mpr ⟨?_, ih hys⟩
      intro z hz
      rcases mem_insert_desc.mp hz with rfl | hz
      · exact le_of_lt (not_le.mp hc)
      · exact hy z hz

theorem sort_desc_pairwise (l : List ScoredPlayer) :
    (sort_desc l).Pairwise (fun a b => b.month_points ≤ a.month_points) := by
  induction l with
  | nil => simp [sort_desc]
  | cons x xs ih => exact insert_desc_pairwise ih

theorem insert_desc_filter (x : ScoredPlayer) (l : List ScoredPlayer) (s : Int) :
    (insert_desc x l).filter (fun e => decide (e.month_points = s)) =
      (x :: l).filter (fun e => decide (e.month_points = s)) := by
  induction l with
  | nil => rfl
  | cons y ys ih =>
    by_cases hc : y.month_points ≤ x.month_points
    · simp only [insert_desc, if_pos hc]
    · have hlt : x.month_points < y.month_points := not_le.mp hc
      simp only [insert_desc, if_neg hc]
      by_cases hx : x.month_points = s
      · have hy : ¬ y.month_points = s := by omega
        simp [List.filter_cons, hx, hy, ih]
      · by_cases hy : y.month_points = s
        · simp [List.filter_cons, hx, hy, ih]
        · simp [List.filter_cons, hx, hy, ih]

theorem sort_desc_filter (l : List ScoredPlayer) (s : Int) :
    (sort_desc l).filter (fun e => decide (e.month_points = s)) =
      l.filter (fun e => decide (e.month_points = s)) := by
  induction l with
  | nil => rfl
  | cons x xs ih =>
    show (insert_desc x (sort_desc xs)).filter _ = _
    rw [insert_desc_filter]
    by_cases hx : x.month_points = s
    · simp [List.filter_cons, hx, ih]
    · simp [List.filter_cons, hx, ih]

theorem sort_desc_length (l : List ScoredPlayer) :
    (sort_desc l).length = l.length :=
  (sort_desc_perm l).length_eq

theorem sort_desc_const_zero : ∀ (l : List ScoredPlayer),
    (∀ q ∈ l, q.month_points = 0) → sort_desc l = l := by
  intro l
  induction l with
  | nil => intro _; rfl
  | cons x xs ih =>
    intro h
    show insert_desc x (sort_desc xs) = x :: xs
    rw [ih (fun q hq => h q (List.mem_cons_of_mem _ hq))]
    cases xs with
    | nil => rfl
    | cons y ys =>
      have hx : x.month_points = 0 := h x (List.mem_cons_self _ _)
      have hy : y.month_points = 0 := h y (by simp)
      simp [insert_desc, hx, hy]

/-! ### Properties of the scoring loop -/

theorem get_gameweek_points_ok {history : Int → Option (List GWRecord)}
    {player_id : Int} {H : List GWRecord} (hH : history player_id = some H)
    {gameweek : List Int} (hgw : gameweek ≠ [0]) :
    get_gameweek_points history player_id gameweek =
      Except.ok (((H.filter (fun e => decide (e.event ∈ gameweek))).map
        (fun e => e.points)).sum) := by
  simp [get_gameweek_points, hH, hgw]

theorem get_gameweek_points_nil {history : Int → Option (List GWRecord)}
    {player_id : Int} {H : List GWRecord} (hH : history player_id = some H) :
    get_gameweek_points history player_id [] = Except.ok 0 := by
  simp [get_gameweek_points, hH]

theorem score_players_ok_info {history : Int → Option (List GWRecord)}
    {gameweeks : List Int} :
    ∀ {roster : List PlayerInfo} {scored : List ScoredPlayer},
      score_players history gameweeks roster = Except.ok scored →
        scored.map (fun q => q.info) = roster := by
  intro roster
  induction roster with
  | nil =>
    intro scored h
    simp only [score_players, Except.ok.injEq] at h
    subst h
    rfl
  | cons p ps ih =>
    intro scored h
    simp only [score_players] at h
    cases hg : get_gameweek_points history p.entry gameweeks with
    | error e => rw [hg] at h; cases h
    | ok pts =>
      rw [hg] at h
      cases hr : score_players history gameweeks ps with
      | error e => rw [hr] at h; cases h
      | ok rest =>
        rw [hr] at h
        simp only [Except.ok.injEq] at h
        subst h
        simp [ih hr]

theorem score_players_length {history : Int → Option (List GWRecord)}
    {gameweeks : List Int} {roster : List PlayerInfo} {scored : List ScoredPlayer}
    (h : score_players history gameweeks roster = Except.ok scored) :
    scored.length = roster.length := by
  rw [← score_players_ok_info h, List.length_map]

theorem score_players_ok_of_history {history : Int → Option (List GWRecord)}
    {gameweeks : List Int} (hgw : gameweeks ≠ [0]) :
    ∀ {roster : List PlayerInfo},
      (∀ p ∈ roster, ∃ H, history p.entry = some H) →
        ∃ scored, score_players history gameweeks roster = Except.ok scored := by
  intro roster
  induction roster with
  | nil => intro _; exact ⟨[], rfl⟩
  | cons p ps ih =>
    intro hh
    obtain ⟨H, hH⟩ := hh p (List.mem_cons_self p ps)
    obtain ⟨rest, hrest⟩ := ih (fun q hq => hh q (List.mem_cons_of_mem p hq))
    refine ⟨⟨p, ((H.filter (fun e => decide (e.event ∈ gameweeks))).map
      (fun e => e.points)).sum⟩ :: rest, ?_⟩
    simp only [score_players, get_gameweek_points_ok hH hgw, hrest]

theorem score_players_nil_gameweeks {history : Int → Option (List GWRecord)} :
    ∀ {roster : List PlayerInfo},
      (∀ p ∈ roster, ∃ H, history p.entry = some H) →
        score_players history [] roster =
          Except.ok (roster.map (fun p => ⟨p, 0⟩)) := by
  intro roster
  induction roster with
  | nil => intro _; rfl
  | cons p ps ih =>
    intro hh
    obtain ⟨H, hH⟩ := hh p (List.mem_cons_self p ps)
    simp only [score_players, get_gameweek_points_nil hH,
      ih (fun q hq => hh q (List.mem_cons_of_mem p hq)), List.map_cons]

/-! ### Properties of the calendar resolution -/

theorem mem_get_gameweeks_for_month {events_full : List EventDate}
    {month year k : Int} :
    k ∈ get_gameweeks_for_month events_full month year ↔
      ∃ (i : Nat) (d : EventDate), events_full[i]? = some d ∧ k = (i : Int) + 1
        ∧ d.month = month ∧ d.year = year := by
  unfold get_gameweeks_for_month
  simp only [List.mem_map, List.mem_filter, List.mem_enum_iff_getElem?]
  constructor
  · rintro ⟨⟨i, d⟩, ⟨hmem, hpred⟩, rfl⟩
    simp only [Bool.and_eq_true, decide_eq_true_eq] at hpred
    exact ⟨i, d, hmem, rfl, hpred.1, hpred.2⟩
  · rintro ⟨i, d, hg, rfl, hm, hy⟩
    exact ⟨(i, d), ⟨hg, by simp [hm, hy]⟩, rfl⟩

theorem get_gameweeks_for_month_pos {events_full : List EventDate}
    {month year : Int} :
    ∀ k ∈ get_gameweeks_for_month events_full month year, 1 ≤ k := by
  intro k hk
  obtain ⟨i, d, _, rfl, _, _⟩ := mem_get_gameweeks_for_month.mp hk
  omega

theorem get_gameweeks_for_month_ne_sentinel (events_full : List EventDate)
    (month year : Int) :
    get_gameweeks_for_month events_full month year ≠ [0] := by
  intro h
  have h0 : (0 : Int) ∈ get_gameweeks_for_month events_full month year := by
    rw [h]; simp
  have := get_gameweeks_for_month_pos 0 h0
  omega

theorem get_gameweeks_for_month_sorted (events_full : List EventDate)
    (month year : Int) :
    (get_gameweeks_for_month events_full month year).Pairwise
      (fun a b => a < b) := by
  unfold get_gameweeks_for_month
  rw [List.pairwise_map]
  have h0 : events_full.enum.Pairwise (fun p q => p.1 < q.1) := by
    have h1 : List.Pairwise (fun a b => a < b) (events_full.enum.map Prod.fst) := by
      rw [List.enum_map_fst]
      exact List.pairwise_lt_range _
    exact List.pairwise_map.mp h1
  have h2 : (events_full.enum.filter
      (fun p => decide (p.2.month = month) && decide (p.2.year = year))).Pairwise
      (fun p q => p.1 < q.1) :=
    List.Pairwise.sublist (List.filter_sublist _) h0
  exact h2.imp (fun h => by omega)

theorem get_gameweeks_for_month_empty {events_full : List EventDate}
    {month year : Int}
    (h : ∀ d ∈ events_full, ¬(d.month = month ∧ d.year = year)) :
    get_gameweeks_for_month events_full month year = [] := by
  unfold get_gameweeks_for_month
  rw [List.map_eq_nil_iff, List.filter_eq_nil_iff]
  rintro ⟨i, d⟩ hmem
  have hd : d ∈ events_full := by
    have := List.mem_enum_iff_getElem?.mp hmem
    exact List.getElem?_mem this
  simp only [Bool.and_eq_true, decide_eq_true_eq]
  intro hcontra
  exact h d hd hcontra

/-! ### Properties of the rank assignments -/

theorem range'_map_succ (s n : Nat) :
    (List.range' s n).map (fun k => k + 1) = List.range' (s + 1) n := by
  have h := List.map_add_range' 1 s n 1
  have h2 : (List.range' s n).map (fun k => k + 1) =
      (List.range' s n).map (fun k => 1 + k) :=
    List.map_congr_left (fun a _ => Nat.add_comm a 1)
  rw [h2, h, Nat.add_comm 1 s]

theorem range'_take : ∀ (n s m : Nat),
    (List.range' s n).take m = List.range' s (min m n) := by
  intro n
  induction n with
  | zero => intro s m; simp
  | succ k ih =>
    intro s m
    cases m with
    | zero => simp
    | succ j =>
      rw [List.range'_succ, List.take_succ_cons, ih, Nat.succ_min_succ,
        List.range'_succ]

theorem map_indexOf_succ_of_nodup :
    ∀ (l : List ScoredPlayer), l.Nodup →
      l.map (fun p => l.indexOf p + 1) = List.range' 1 l.length := by
  intro l
  induction l with
  | nil => intro _; rfl
  | cons x xs ih =>
    intro h
    rcases List.nodup_cons.mp h with ⟨hx, hxs⟩
    have h1 : List.indexOf x (x :: xs) = 0 := List.indexOf_cons_self x xs
    have h2 : xs.map (fun p => (x :: xs).indexOf p + 1) =
        (xs.map (fun p => xs.indexOf p + 1)).map (fun k => k + 1) := by
      rw [List.map_map]
      refine List.map_congr_left ?_
      intro a ha
      have hne : x ≠ a := fun hEq => hx (hEq ▸ ha)
      simp [Function.comp, List.indexOf_cons_ne xs hne]
    simp only [List.map_cons, h1, h2, ih hxs, range'_map_succ]
    rw [List.length_cons, List.range'_succ]

theorem rank_by_index_map_rank {l : List ScoredPlayer} (h : l.Nodup) :
    (rank_by_index l).map (fun r => r.rank) = List.range' 1 l.length := by
  unfold rank_by_index
  rw [List.map_map]
  exact map_indexOf_succ_of_nodup l h

theorem rank_by_index_map_points (l : List ScoredPlayer) :
    (rank_by_index l).map (fun r => r.month_points) =
      l.map (fun p => p.month_points) := by
  unfold rank_by_index
  rw [List.map_map]
  rfl

theorem rank_by_index_length (l : List ScoredPlayer) :
    (rank_by_index l).length = l.length := by
  unfold rank_by_index
  rw [List.length_map]

theorem rank_by_position_map_rank (l : List ScoredPlayer) :
    (rank_by_position l).map (fun r => r.rank) = List.range' 1 l.length := by
  unfold rank_by_position
  rw [List.map_map]
  have h1 : ((fun r : RankedPlayer => r.rank) ∘ fun p : Nat × ScoredPlayer =>
      (⟨p.1 + 1, p.2.info.player_name, p.2.info.entry_name, p.2.month_points⟩ :
        RankedPlayer)) = (fun k => k + 1) ∘ Prod.fst := rfl
  rw [h1, ← List.map_map, List.enum_map_fst, List.range_eq_range',
    range'_map_succ]

theorem rank_by_position_map_points (l : List ScoredPlayer) :
    (rank_by_position l).map (fun r => r.month_points) =
      l.map (fun p => p.month_points) := by
  unfold rank_by_position
  rw [List.map_map]
  have h1 : ((fun r : RankedPlayer => r.month_points) ∘ fun p : Nat × ScoredPlayer =>
      (⟨p.1 + 1, p.2.info.player_name, p.2.info.entry_name, p.2.month_points⟩ :
        RankedPlayer)) = (fun p : ScoredPlayer => p.month_points) ∘ Prod.snd := rfl
  rw [h1, ← List.map_map, List.enum_map_snd]

theorem rank_by_position_length (l : List ScoredPlayer) :
    (rank_by_position l).length = l.length := by
  unfold rank_by_position
  rw [List.length_map, List.enum_length]

theorem take_drop_scores {l : List ScoredPlayer} (n : Nat)
    (h : l.Pairwise (fun a b => b.month_points ≤ a.month_points)) :
    ∀ a ∈ l.take n, ∀ b ∈ l.drop n, b.month_points ≤ a.month_points := by
  have h' : (l.take n ++ l.drop n).Pairwise
      (fun a b => b.month_points ≤ a.month_points) := by
    rw [List.take_append_drop]; exact h
  exact (List.pairwise_append.mp h').2.2

/-! ### Unfolding the two month-report implementations -/

theorem fetch_mom_eq_of_ok {standings_full : List StandingRow}
    {league_name : String} {history : Int → Option (List GWRecord)}
    {events_full : List EventDate} {position : Nat} {month year : Int}
    {scored : List ScoredPlayer} {p0 : ScoredPlayer} {rest : List ScoredPlayer}
    (hs : score_players history (get_gameweeks_for_month events_full month year)
        (get_players_in_league standings_full league_name) = Except.ok scored)
    (hsort : sort_desc scored = p0 :: rest) :
    FetchData.get_manager_of_the_month standings_full league_name history
        events_full position month year =
      Except.ok (p0.info.league_name, (rank_by_index (p0 :: rest)).take position) := by
  simp only [FetchData.get_manager_of_the_month, hs, hsort]

theorem fetch_mom_eq_of_sort_nil {standings_full : List StandingRow}
    {league_name : String} {history : Int → Option (List GWRecord)}
    {events_full : List EventDate} {position : Nat} {month year : Int}
    {scored : List ScoredPlayer}
    (hs : score_players history (get_gameweeks_for_month events_full month year)
        (get_players_in_league standings_full league_name) = Except.ok scored)
    (hsort : sort_desc scored = []) :
    FetchData.get_manager_of_the_month standings_full league_name history
        events_full position month year = Except.error PyExc.indexError := by
  simp only [FetchData.get_manager_of_the_month, hs, hsort]

theorem league_mom_eq_of_ok {standings_full : List StandingRow}
    {league_name : String} {history : Int → Option (List GWRecord)}
    {events_full : List EventDate} {position : Nat} {month year : Int}
    {scored : List ScoredPlayer}
    (hs : score_players history (get_gameweeks_for_month events_full month year)
        ((get_players_in_league standings_full league_name).take position) =
      Except.ok scored) :
    League.get_manager_of_the_month standings_full league_name history
        events_full position month year =
      Except.ok (rank_by_position (sort_desc scored)) := by
  simp only [League.get_manager_of_the_month, hs]

/-! ### Claim C2 -/

theorem sum_filter_points (G : List Int) : ∀ H : List GWRecord,
    ((H.filter (fun e => decide (e.event ∈ G))).map (fun e => e.points)).sum =
      H.foldr (fun e acc => if e.event ∈ G then e.points + acc else acc) 0 := by
  intro H
  induction H with
  | nil => rfl
  | cons e es ih =>
    by_cases he : e.event ∈ G
    · simp [List.filter_cons, he, ih]
    · simp [List.filter_cons, he, ih]

theorem foldr_points_zero {G : List Int} : ∀ {H : List GWRecord},
    (∀ e ∈ H, e.event ∉ G) →
      H.foldr (fun e acc => if e.event ∈ G then e.points + acc else acc) 0 = 0 := by
  intro H
  induction H with
  | nil => intro _; rfl
  | cons e es ih =>
    intro h
    have he : e.event ∉ G := h e (List.mem_cons_self e es)
    simp only [List.foldr_cons, if_neg he]
    exact ih (fun q hq => h q (List.mem_cons_of_mem e hq))

/-- Claim C2: for every manager id whose upstream history is `H`, every
non-empty gameweek filter `G` (of genuine, hence positive, gameweek ids),
`get_gameweek_points` returns exactly the sum of the `points` fields of the
records of `H` whose gameweek id is a member of `G` (expressed as a fold
over the full history, where records outside `G` contribute nothing), it
returns `Except.ok 0` when no record matches, and members of `G` absent
from `H` never cause an error. -/
theorem C2_gameweek_points_sum (history : Int → Option (List GWRecord))
    (player_id : Int) (G : List Int) (H : List GWRecord)
    (hH : history player_id = some H) (hne : G ≠ [])
    (hpos : ∀ g ∈ G, 0 < g) :
    get_gameweek_points history player_id G =
        Except.ok (H.foldr
          (fun e acc => if e.event ∈ G then e.points + acc else acc) 0)
      ∧ ((∀ e ∈ H, e.event ∉ G) →
          get_gameweek_points history player_id G = Except.ok 0) := by
  have hG0 : G ≠ [0] := by
    intro h
    subst h
    exact absurd (hpos 0 (by simp)) (by omega)
  constructor
  · rw [get_gameweek_points_ok hH hG0, sum_filter_points]
  · intro hnone
    rw [get_gameweek_points_ok hH hG0, sum_filter_points,
      foldr_points_zero hnone]

theorem C2_witness :
    get_gameweek_points
        (fun pid => if pid = 7 then
          some [⟨1, 10, 10⟩, ⟨2, 20, 30⟩, ⟨3, 5, 35⟩] else none)
        7 [2, 3] = Except.ok 25 := by
  have h := (C2_gameweek_points_sum
    (fun pid => if pid = 7 then
      some [⟨1, 10, 10⟩, ⟨2, 20, 30⟩, ⟨3, 5, 35⟩] else none)
    7 [2, 3] [⟨1, 10, 10⟩, ⟨2, 20, 30⟩, ⟨3, 5, 35⟩]
    rfl (by decide) (by decide)).1
  rw [h]
  rfl

/-! ### Claim C5 -/

/-- Claim C5: `get_gameweeks_for_month` returns exactly the gameweek ids
(1-based schedule positions) whose deadline has the requested calendar
month and year, in strictly ascending order (hence with no duplicates),
and the empty list when no schedule entry matches. -/
theorem C5_gameweeks_for_month (events_full : List EventDate)
    (month year : Int) :
    (∀ k : Int, k ∈ get_gameweeks_for_month events_full month year ↔
        ∃ (i : Nat) (d : EventDate), events_full[i]? = some d
          ∧ k = (i : Int) + 1 ∧ d.month = month ∧ d.year = year)
    ∧ (get_gameweeks_for_month events_full month year).Pairwise
        (fun a b => a < b)
    ∧ ((∀ d ∈ events_full, ¬(d.month = month ∧ d.year = year)) →
        get_gameweeks_for_month events_full month year = []) :=
  ⟨fun _ => mem_get_gameweeks_for_month,
   get_gameweeks_for_month_sorted events_full month year,
   fun h => get_gameweeks_for_month_empty h⟩

theorem C5_witness :
    (2 : Int) ∈ get_gameweeks_for_month [⟨11, 2022⟩, ⟨12, 2022⟩] 12 2022
    ∧ get_gameweeks_for_month [⟨11, 2022⟩] 12 2022 = [] := by
  constructor
  · exact ((C5_gameweeks_for_month [⟨11, 2022⟩, ⟨12, 2022⟩] 12 2022).1 2).mpr
      ⟨1, ⟨12, 2022⟩, rfl, by decide, rfl, rfl⟩
  · exact (C5_gameweeks_for_month [⟨11, 2022⟩] 12 2022).2.2 (by decide)

/-! ### Claim C6 -/

/-- Claim C6: with the no-filter sentinel `[0]`, `get_gameweek_points`
returns the `total_points` field of the chronologically last record of the
manager's (non-empty) history. -/
theorem C6_total_points_last (history : Int → Option (List GWRecord))
    (player_id : Int) (H : List GWRecord)
    (hH : history player_id = some H) (hne : H ≠ []) :
    get_gameweek_points history player_id [0] =
      Except.ok ((H.getLast hne).total_points) := by
  simp [get_gameweek_points, hH, List.getLast?_eq_getLast H hne]

theorem C6_witness :
    get_gameweek_points
        (fun pid => if pid = 9 then some [⟨1, 10, 10⟩, ⟨2, 20, 30⟩] else none)
        9 [0] = Except.ok 30 := by
  have h := C6_total_points_last
    (fun pid => if pid = 9 then some [⟨1, 10, 10⟩, ⟨2, 20, 30⟩] else none)
    9 [⟨1, 10, 10⟩, ⟨2, 20, 30⟩] rfl (by decide)
  rw [h]
  rfl

/-! ### Claim C3 -/

/-- Claim C3, counterexample: the claim says the top-level loop catches
exactly the `InvalidLeagueId` kind, a `ManagerNotFound` failure being fatal
and never treated as an invalid league id. But the
`except (KeyError, json.JSONDecodeError)` clause of src/fetch_fpl.py line
213 catches exception classes, and a `ManagerNotFound` failure manifests
as `KeyError` at `data_json["current"]`: the loop treats it exactly like
an invalid league id and re-prompts. -/
theorem C3_counterexample :
    PyExc.keyError ∈ raised_exceptions ErrorKind.managerNotFound
    ∧ cli_catches PyExc.keyError = true
    ∧ cli_loop_step (Except.error PyExc.keyError) = LoopOutcome.reprompt :=
  ⟨by decide, rfl, rfl⟩

/-- Claim C3, amended: the loop catches exactly the exception classes
`KeyError` and `json.JSONDecodeError`. Every exception through which
`InvalidLeagueId`, `ManagerNotFound` or `ScheduleUnavailable` manifests is
one of these two classes and leads to the invalid-league-id re-prompt;
only `UpstreamTimeout` (`requests.exceptions.Timeout`) is fatal to the
current run. -/
theorem C3_amended_catch_classes :
    (∀ e, cli_catches e = true ↔ e = PyExc.keyError ∨ e = PyExc.jsonDecodeError)
    ∧ (∀ k, k ≠ ErrorKind.upstreamTimeout →
        ∀ e ∈ raised_exceptions k,
          cli_loop_step (Except.error e) = LoopOutcome.reprompt)
    ∧ (∀ e ∈ raised_exceptions ErrorKind.upstreamTimeout,
        cli_loop_step (Except.error e) = LoopOutcome.fatal e) := by
  refine ⟨?_, ?_, ?_⟩ <;> decide

theorem C3_witness :
    cli_loop_step (Except.error PyExc.jsonDecodeError) = LoopOutcome.reprompt :=
  C3_amended_catch_classes.2.1 ErrorKind.invalidLeagueId (by decide)
    PyExc.jsonDecodeError (by decide)

/-! ### Claim C9 -/

/-- Claim C9: the claim (and the docstrings "if left blank, current month
used") say an omitted month/year equals the calendar month/year current at
the time of the call. Python instead evaluates the `datetime.now()`
default-argument expressions once, at class-definition (module-load) time.
Loaded in November 2022 and called in December 2022 against a schedule
whose only deadline is in December 2022, the omitted-argument call returns
`[]` while the documented call-time behaviour returns `[1]`; in general an
omitted-argument call equals passing the load-time month and year
explicitly, whatever the clock reads at call time. -/
theorem C9_defaults_at_definition_time :
    get_gameweeks_for_month_omitted (module_load ⟨11, 2022⟩) ⟨12, 2022⟩
        [⟨12, 2022⟩] = []
    ∧ get_gameweeks_for_month [⟨12, 2022⟩] 12 2022 = [1]
    ∧ (∀ (load call : Clock) (events_full : List EventDate),
        get_gameweeks_for_month_omitted (module_load load) call events_full =
          get_gameweeks_for_month events_full load.month load.year)
    ∧ (∀ (load call : Clock) (standings_full : List StandingRow)
        (league_name : String) (history : Int → Option (List GWRecord))
        (events_full : List EventDate) (position : Nat),
        get_manager_of_the_month_omitted (module_load load) call standings_full
            league_name history events_full position =
          FetchData.get_manager_of_the_month standings_full league_name history
            events_full position load.month load.year) :=
  ⟨rfl, rfl, fun _ _ _ => rfl, fun _ _ _ _ _ _ _ => rfl⟩

/-! ### Claim C10 -/

/-- Claim C10: on the empty roster, `FetchData.get_manager_of_the_month`
fails with `IndexError` while building the title line (it reads
`player_info[0]["league_name"]` on the empty sorted list) instead of
returning an empty leaderboard; with a non-empty roster (and a history
response for every member) the same call succeeds, so the operation is
total exactly under the non-empty-roster precondition. -/
theorem C10_empty_roster_index_error :
    (∀ (league_name : String) (history : Int → Option (List GWRecord))
        (events_full : List EventDate) (position : Nat) (month year : Int),
      FetchData.get_manager_of_the_month [] league_name history events_full
          position month year = Except.error PyExc.indexError)
    ∧ (∀ (standings_full : List StandingRow) (league_name : String)
        (history : Int → Option (List GWRecord)) (events_full : List EventDate)
        (position : Nat) (month year : Int),
        standings_full ≠ [] →
        (∀ p ∈ get_players_in_league standings_full league_name,
          ∃ H, history p.entry = some H) →
        ∃ v, FetchData.get_manager_of_the_month standings_full league_name
          history events_full position month year = Except.ok v) := by
  constructor
  · intro league_name history events_full position month year
    rfl
  · intro standings_full league_name history events_full position month year hne hh
    obtain ⟨scored, hs⟩ := score_players_ok_of_history
      (get_gameweeks_for_month_ne_sentinel events_full month year) hh
    have hlen : scored.length =
        (get_players_in_league standings_full league_name).length :=
      score_players_length hs
    have hslen : (sort_desc scored).length ≠ 0 := by
      rw [sort_desc_length, hlen]
      unfold get_players_in_league
      rw [List.length_map]
      intro h0
      exact hne (List.length_eq_zero.mp h0)
    cases hsort : sort_desc scored with
    | nil => rw [hsort] at hslen; exact absurd rfl hslen
    | cons p0 rest => exact ⟨_, fetch_mom_eq_of_ok hs hsort⟩

theorem C10_witness :
    ∃ v, FetchData.get_manager_of_the_month [⟨1, "Cara", "Team C", 4, 12⟩] "L"
        (fun pid => if pid = 4 then some [⟨1, 12, 12⟩] else none)
        [] 10 3 2024 = Except.ok v :=
  C10_empty_roster_index_error.2 [⟨1, "Cara", "Team C", 4, 12⟩] "L"
    (fun pid => if pid = 4 then some [⟨1, 12, 12⟩] else none) [] 10 3 2024
    (by decide)
    (by
      intro p hp
      simp only [get_players_in_league, List.map_cons, List.map_nil,
        List.mem_singleton] at hp
      subst hp
      exact ⟨[⟨1, 12, 12⟩], rfl⟩)

/-! ### Claim C7 -/

/-- Claim C7, counterexample: the claim quantifies over every roster, but
on the empty roster (with a month/year matching no gameweek, so the
resolved gameweek set is empty) `FetchData.get_manager_of_the_month` does
raise: it fails with `IndexError` at the title line instead of returning
ranked entries. -/
theorem C7_counterexample :
    get_gameweeks_for_month ([] : List EventDate) 7 2023 = []
    ∧ FetchData.get_manager_of_the_month [] "EmptyLeague" (fun _ => none) []
        10 7 2023 = Except.error PyExc.indexError :=
  ⟨rfl, rfl⟩

/-- Claim C7, amended: for every NON-EMPTY roster (each member having an
upstream history response), if the resolved gameweek set for the requested
month/year is empty then the report does not raise: every manager is
assigned a month score of `0` and ranked entries are still returned (all
tied at `0`), `min position n` of them. -/
theorem C7_amended_zero_scores (standings_full : List StandingRow)
    (league_name : String) (history : Int → Option (List GWRecord))
    (events_full : List EventDate) (position : Nat) (month year : Int)
    (hne : standings_full ≠ [])
    (hh : ∀ p ∈ get_players_in_league standings_full league_name,
      ∃ H, history p.entry = some H)
    (hempty : get_gameweeks_for_month events_full month year = []) :
    ∃ t entries, FetchData.get_manager_of_the_month standings_full league_name
        history events_full position month year = Except.ok (t, entries)
      ∧ (∀ r ∈ entries, r.month_points = 0)
      ∧ entries.length = min position standings_full.length := by
  have hs : score_players history
      (get_gameweeks_for_month events_full month year)
      (get_players_in_league standings_full league_name) =
      Except.ok ((get_players_in_league standings_full league_name).map
        (fun p => ⟨p, 0⟩)) := by
    rw [hempty]
    exact score_players_nil_gameweeks hh
  have hzero : ∀ q ∈ (get_players_in_league standings_full league_name).map
      (fun p : PlayerInfo => (⟨p, 0⟩ : ScoredPlayer)), q.month_points = 0 := by
    intro q hq
    obtain ⟨p, _, rfl⟩ := List.mem_map.mp hq
    rfl
  have hne2 : (get_players_in_league standings_full league_name).map
      (fun p : PlayerInfo => (⟨p, 0⟩ : ScoredPlayer)) ≠ [] := by
    intro h0
    rw [List.map_eq_nil_iff] at h0
    unfold get_players_in_league at h0
    rw [List.map_eq_nil_iff] at h0
    exact hne h0
  obtain ⟨s0, srest, hcase⟩ := List.exists_cons_of_ne_nil hne2
  have hsort : sort_desc ((get_players_in_league standings_full league_name).map
      (fun p : PlayerInfo => (⟨p, 0⟩ : ScoredPlayer))) = s0 :: srest :=
    (sort_desc_const_zero _ hzero).trans hcase
  refine ⟨s0.info.league_name, (rank_by_index (s0 :: srest)).take position,
    fetch_mom_eq_of_ok hs hsort, ?_, ?_⟩
  · intro r hr
    have hr2 := List.mem_of_mem_take hr
    obtain ⟨p, hp, rfl⟩ := List.mem_map.mp hr2
    have hp2 : p ∈ (get_players_in_league standings_full league_name).map
        (fun p : PlayerInfo => (⟨p, 0⟩ : ScoredPlayer)) := by
      rw [hcase]
      exact hp
    exact hzero p hp2
  · rw [List.length_take, rank_by_index_length, ← hcase, List.length_map]
    unfold get_players_in_league
    rw [List.length_map]

theorem C7_witness :
    ∃ t entries, FetchData.get_manager_of_the_month [⟨1, "Ann", "T", 3, 0⟩] "L"
        (fun pid => if pid = 3 then some [] else none) [] 5 2 2021 =
          Except.ok (t, entries)
      ∧ (∀ r ∈ entries, r.month_points = 0)
      ∧ entries.length = min 5 [(⟨1, "Ann", "T", 3, 0⟩ : StandingRow)].length :=
  C7_amended_zero_scores [⟨1, "Ann", "T", 3, 0⟩] "L"
    (fun pid => if pid = 3 then some [] else none) [] 5 2 2021
    (by decide)
    (by
      intro p hp
      simp only [get_players_in_league, List.map_cons, List.map_nil,
        List.mem_singleton] at hp
      subst hp
      exact ⟨[], rfl⟩)
    rfl

/-! ### Claim C8 -/

/-- Claim C8, counterexample: the claim quantifies over every roster of
size `n`, but on the empty roster (`n = 0`) with limit `0`
`FetchData.get_manager_of_the_month` raises `IndexError` at the title line
instead of yielding an empty result list. -/
theorem C8_counterexample :
    FetchData.get_manager_of_the_month [] "M" (fun _ => none) [⟨1, 2000⟩]
      0 1 2000 = Except.error PyExc.indexError :=
  rfl

/-- Claim C8, amended: with a history response for every roster member,
`League.get_manager_of_the_month` satisfies the claim for every roster
(limit `0` yields `[]`, any limit `≥ n` yields all `n` entries, no error);
`FetchData.get_manager_of_the_month` satisfies it provided additionally
that the roster is non-empty (its title construction raises `IndexError`
on the empty roster whatever the limit): limit `0` then yields an empty
entry list and any limit `≥ n` yields all `n` entries. -/
theorem C8_amended_limit_bounds (standings_full : List StandingRow)
    (league_name : String) (history : Int → Option (List GWRecord))
    (events_full : List EventDate) (month year : Int)
    (hh : ∀ p ∈ get_players_in_league standings_full league_name,
      ∃ H, history p.entry = some H) :
    League.get_manager_of_the_month standings_full league_name history
        events_full 0 month year = Except.ok []
    ∧ (∀ position, standings_full.length ≤ position →
        ∃ l, League.get_manager_of_the_month standings_full league_name history
            events_full position month year = Except.ok l
          ∧ l.length = standings_full.length)
    ∧ (standings_full ≠ [] →
        ∃ t, FetchData.get_manager_of_the_month standings_full league_name
          history events_full 0 month year = Except.ok (t, []))
    ∧ (standings_full ≠ [] → ∀ position, standings_full.length ≤ position →
        ∃ t l, FetchData.get_manager_of_the_month standings_full league_name
            history events_full position month year = Except.ok (t, l)
          ∧ l.length = standings_full.length) := by
  have hroster_len : (get_players_in_league standings_full league_name).length =
      standings_full.length := by
    unfold get_players_in_league
    rw [List.length_map]
  have hgw := get_gameweeks_for_month_ne_sentinel events_full month year
  refine ⟨rfl, ?_, ?_, ?_⟩
  · intro position hpos
    have htake : (get_players_in_league standings_full league_name).take position =
        get_players_in_league standings_full league_name :=
      List.take_of_length_le (by rw [hroster_len]; exact hpos)
    obtain ⟨scored, hs⟩ := score_players_ok_of_history hgw hh
    have hs' : score_players history
        (get_gameweeks_for_month events_full month year)
        ((get_players_in_league standings_full league_name).take position) =
        Except.ok scored := by rw [htake]; exact hs
    refine ⟨rank_by_position (sort_desc scored), league_mom_eq_of_ok hs', ?_⟩
    rw [rank_by_position_length, sort_desc_length, score_players_length hs,
      hroster_len]
  · intro hne
    obtain ⟨scored, hs⟩ := score_players_ok_of_history hgw hh
    have hslen : (sort_desc scored).length ≠ 0 := by
      rw [sort_desc_length, score_players_length hs, hroster_len]
      intro h0
      exact hne (List.length_eq_zero.mp h0)
    have hne3 : sort_desc scored ≠ [] := by
      intro h0
      rw [h0] at hslen
      exact hslen rfl
    obtain ⟨p0, rest, hsort⟩ := List.exists_cons_of_ne_nil hne3
    exact ⟨p0.info.league_name, fetch_mom_eq_of_ok hs hsort⟩
  · intro hne position hpos
    obtain ⟨scored, hs⟩ := score_players_ok_of_history hgw hh
    have hslen : (sort_desc scored).length = standings_full.length := by
      rw [sort_desc_length, score_players_length hs, hroster_len]
    have hne3 : sort_desc scored ≠ [] := by
      intro h0
      rw [h0] at hslen
      exact hne (List.length_eq_zero.mp hslen.symm)
    obtain ⟨p0, rest, hsort⟩ := List.exists_cons_of_ne_nil hne3
    refine ⟨p0.info.league_name, (rank_by_index (p0 :: rest)).take position,
      fetch_mom_eq_of_ok hs hsort, ?_⟩
    rw [List.length_take, rank_by_index_length, ← hsort, hslen]
    exact Nat.min_eq_right hpos

theorem C8_witness :
    (League.get_manager_of_the_month [⟨1, "Dee", "TD", 6, 40⟩] "K"
        (fun pid => if pid = 6 then some [⟨1, 40, 40⟩] else none)
        [⟨9, 2021⟩] 0 9 2021 = Except.ok [])
    ∧ (∃ l, League.get_manager_of_the_month [⟨1, "Dee", "TD", 6, 40⟩] "K"
          (fun pid => if pid = 6 then some [⟨1, 40, 40⟩] else none)
          [⟨9, 2021⟩] 3 9 2021 = Except.ok l
        ∧ l.length = [(⟨1, "Dee", "TD", 6, 40⟩ : StandingRow)].length) := by
  have hh : ∀ p ∈ get_players_in_league [⟨1, "Dee", "TD", 6, 40⟩] "K",
      ∃ H, (fun pid => if pid = 6 then some [(⟨1, 40, 40⟩ : GWRecord)] else none)
        p.entry = some H := by
    intro p hp
    simp only [get_players_in_league, List.map_cons, List.map_nil,
      List.mem_singleton] at hp
    subst hp
    exact ⟨[⟨1, 40, 40⟩], rfl⟩
  have h := C8_amended_limit_bounds [⟨1, "Dee", "TD", 6, 40⟩] "K"
    (fun pid => if pid = 6 then some [⟨1, 40, 40⟩] else none) [⟨9, 2021⟩]
    9 2021 hh
  exact ⟨h.1, h.2.1 3 (by decide)⟩

/-! ### Claim C1 -/

/-- Claim C1, counterexample: `League.get_manager_of_the_month` truncates
the roster BEFORE scoring (`self.get_players_in_league()[:position]`,
src/league.py line 64). With roster `[Alice, Bob]`, November 2022 filter
`{5}`, Alice scoring 0 and Bob scoring 100 in gameweek 5, and limit 1, it
returns Alice with 0 points, although roster member Bob's month score is
100: the returned entry is the best of a roster prefix, not the limit
highest monthly scorer of the whole roster. -/
theorem C1_counterexample :
    League.get_manager_of_the_month
        [⟨1, "Alice", "Team A", 1, 0⟩, ⟨2, "Bob", "Team B", 2, 100⟩] "Walrus"
        (fun pid => if pid = 1 then some [⟨5, 0, 0⟩]
          else if pid = 2 then some [⟨5, 100, 100⟩] else none)
        [⟨8, 2022⟩, ⟨8, 2022⟩, ⟨9, 2022⟩, ⟨10, 2022⟩, ⟨11, 2022⟩] 1 11 2022
      = Except.ok [⟨1, "Alice", "Team A", 0⟩]
    ∧ get_gameweek_points
        (fun pid => if pid = 1 then some [⟨5, 0, 0⟩]
          else if pid = 2 then some [⟨5, 100, 100⟩] else none) 2
        (get_gameweeks_for_month
          [⟨8, 2022⟩, ⟨8, 2022⟩, ⟨9, 2022⟩, ⟨10, 2022⟩, ⟨11, 2022⟩] 11 2022)
      = Except.ok 100
    ∧ ∀ r ∈ [(⟨1, "Alice", "Team A", 0⟩ : RankedPlayer)],
        r.month_points < 100 :=
  ⟨rfl, rfl, by decide⟩

/-- Claim C1, amended: the claim holds of `FetchData.get_manager_of_the_month`
(src/fetch_fpl.py): it scores the FULL roster, sorts all of it descending,
and only then truncates, so the returned entries are the ranked first
`limit` elements of the descending sort of the whole scored roster — a
permutation of it in which every kept score is at least every dropped
score. `League.get_manager_of_the_month` (src/league.py) instead truncates
the roster to its first `limit` entries before scoring, returning the best
of a roster prefix. -/
theorem C1_amended_fetch_full_roster (standings_full : List StandingRow)
    (league_name : String) (history : Int → Option (List GWRecord))
    (events_full : List EventDate) (position : Nat) (month year : Int)
    (scored : List ScoredPlayer) (t : String) (entries : List RankedPlayer)
    (hs : score_players history (get_gameweeks_for_month events_full month year)
        (get_players_in_league standings_full league_name) = Except.ok scored)
    (hr : FetchData.get_manager_of_the_month standings_full league_name history
        events_full position month year = Except.ok (t, entries)) :
    scored.map (fun q => q.info) = get_players_in_league standings_full league_name
    ∧ entries = (rank_by_index (sort_desc scored)).take position
    ∧ (sort_desc scored).Perm scored
    ∧ (∀ a ∈ (sort_desc scored).take position,
        ∀ b ∈ (sort_desc scored).drop position,
          b.month_points ≤ a.month_points) := by
  refine ⟨score_players_ok_info hs, ?_, sort_desc_perm scored,
    take_drop_scores position (sort_desc_pairwise scored)⟩
  cases hsort : sort_desc scored with
  | nil =>
    rw [fetch_mom_eq_of_sort_nil hs hsort] at hr
    cases hr
  | cons p0 rest =>
    rw [fetch_mom_eq_of_ok hs hsort] at hr
    simp only [Except.ok.injEq, Prod.mk.injEq] at hr
    exact hr.2.symm

theorem C1_witness :
    [(⟨1, "Bob", "Team B", 100⟩ : RankedPlayer)] =
      (rank_by_index (sort_desc [⟨⟨1, "Alice", "Team A", "Walrus"⟩, 0⟩,
        ⟨⟨2, "Bob", "Team B", "Walrus"⟩, 100⟩])).take 1 :=
  (C1_amended_fetch_full_roster
    [⟨1, "Alice", "Team A", 1, 0⟩, ⟨2, "Bob", "Team B", 2, 100⟩] "Walrus"
    (fun pid => if pid = 1 then some [⟨5, 0, 0⟩]
      else if pid = 2 then some [⟨5, 100, 100⟩] else none)
    [⟨8, 2022⟩, ⟨8, 2022⟩, ⟨9, 2022⟩, ⟨10, 2022⟩, ⟨11, 2022⟩] 1 11 2022
    [⟨⟨1, "Alice", "Team A", "Walrus"⟩, 0⟩, ⟨⟨2, "Bob", "Team B", "Walrus"⟩, 100⟩]
    "Walrus" [⟨1, "Bob", "Team B", 100⟩] rfl rfl).2.1

/-! ### Claim C4 -/

/-- Claim C4: in every successful month report the assigned ranks are the
dense sequence `1..k` over the `k` returned entries in output order, the
scores are non-increasing along that order, and tied managers keep the
relative order of the (`League`: truncated) roster, expressed by the
filter-by-score stability of the sort. The `League` implementation ranks
positionally, so density is unconditional; the `FetchData` implementation
ranks via `player_info.index(player)`, so density holds whenever the
roster's manager ids are pairwise distinct (the data-model identity
invariant). -/
theorem C4_dense_ranks_sorted_stable (standings_full : List StandingRow)
    (league_name : String) (history : Int → Option (List GWRecord))
    (events_full : List EventDate) (position : Nat) (month year : Int) :
    (∀ scored : List ScoredPlayer,
        score_players history (get_gameweeks_for_month events_full month year)
            ((get_players_in_league standings_full league_name).take position) =
          Except.ok scored →
        League.get_manager_of_the_month standings_full league_name history
            events_full position month year =
          Except.ok (rank_by_position (sort_desc scored))
        ∧ (rank_by_position (sort_desc scored)).map (fun r => r.rank) =
            List.range' 1 (rank_by_position (sort_desc scored)).length
        ∧ ((rank_by_position (sort_desc scored)).map
            (fun r => r.month_points)).Pairwise (fun a b => b ≤ a)
        ∧ (∀ s : Int, (sort_desc scored).filter
              (fun e => decide (e.month_points = s)) =
            scored.filter (fun e => decide (e.month_points = s))))
    ∧ (∀ (scored : List ScoredPlayer) (t : String) (entries : List RankedPlayer),
        ((get_players_in_league standings_full league_name).map
          (fun p => p.entry)).Nodup →
        score_players history (get_gameweeks_for_month events_full month year)
            (get_players_in_league standings_full league_name) =
          Except.ok scored →
        FetchData.get_manager_of_the_month standings_full league_name history
            events_full position month year = Except.ok (t, entries) →
        entries.map (fun r => r.rank) = List.range' 1 entries.length
        ∧ (entries.map (fun r => r.month_points)).Pairwise (fun a b => b ≤ a)
        ∧ (∀ s : Int, (sort_desc scored).filter
              (fun e => decide (e.month_points = s)) =
            scored.filter (fun e => decide (e.month_points = s)))) := by
  constructor
  · intro scored hs
    refine ⟨league_mom_eq_of_ok hs, ?_, ?_, fun s => sort_desc_filter scored s⟩
    · rw [rank_by_position_map_rank, rank_by_position_length]
    · rw [rank_by_position_map_points]
      exact List.pairwise_map.mpr (sort_desc_pairwise scored)
  · intro scored t entries hnodup hs hr
    have hinfo : scored.map (fun q => q.info) =
        get_players_in_league standings_full league_name :=
      score_players_ok_info hs
    have hentries : (scored.map (fun q => q.info.entry)).Nodup := by
      have h2 : scored.map (fun q => q.info.entry) =
          (get_players_in_league standings_full league_name).map
            (fun p => p.entry) := by
        rw [← hinfo, List.map_map]
        rfl
      rw [h2]
      exact hnodup
    have hnd : scored.Nodup :=
      List.Nodup.of_map (fun q : ScoredPlayer => q.info.entry) hentries
    have hsortnd : (sort_desc scored).Nodup :=
      (sort_desc_perm scored).symm.nodup hnd
    cases hsort : sort_desc scored with
    | nil =>
      rw [fetch_mom_eq_of_sort_nil hs hsort] at hr
      cases hr
    | cons p0 rest =>
      rw [fetch_mom_eq_of_ok hs hsort] at hr
      simp only [Except.ok.injEq, Prod.mk.injEq] at hr
      have hent : entries = (rank_by_index (p0 :: rest)).take position :=
        hr.2.symm
      have hnd2 : (p0 :: rest).Nodup := by
        rw [← hsort]
        exact hsortnd
      refine ⟨?_, ?_, fun s => by rw [← hsort]; exact sort_desc_filter scored s⟩
      · rw [hent, List.map_take, rank_by_index_map_rank hnd2,
          range'_take, List.length_take, rank_by_index_length]
      · rw [hent, List.map_take, rank_by_index_map_points]
        have hpw : ((p0 :: rest).map (fun p => p.month_points)).Pairwise
            (fun a b => b ≤ a) := by
          refine List.pairwise_map.mpr ?_
          rw [← hsort]
          exact sort_desc_pairwise scored
        exact List.Pairwise.sublist
          (List.take_sublist position ((p0 :: rest).map (fun p => p.month_points)))
          hpw

theorem C4_witness :
    League.get_manager_of_the_month
        [⟨1, "Alice", "Team A", 1, 0⟩, ⟨2, "Bob", "Team B", 2, 100⟩] "Walrus"
        (fun pid => if pid = 1 then some [⟨5, 0, 0⟩]
          else if pid = 2 then some [⟨5, 100, 100⟩] else none)
        [⟨8, 2022⟩, ⟨8, 2022⟩, ⟨9, 2022⟩, ⟨10, 2022⟩, ⟨11, 2022⟩] 10 11 2022 =
      Except.ok (rank_by_position (sort_desc
        [⟨⟨1, "Alice", "Team A", "Walrus"⟩, 0⟩,
         ⟨⟨2, "Bob", "Team B", "Walrus"⟩, 100⟩])) :=
  ((C4_dense_ranks_sorted_stable
    [⟨1, "Alice", "Team A", 1, 0⟩, ⟨2, "Bob", "Team B", 2, 100⟩] "Walrus"
    (fun pid => if pid = 1 then some [⟨5, 0, 0⟩]
      else if pid = 2 then some [⟨5, 100, 100⟩] else none)
    [⟨8, 2022⟩, ⟨8, 2022⟩, ⟨9, 2022⟩, ⟨10, 2022⟩, ⟨11, 2022⟩] 10 11 2022).1
    [⟨⟨1, "Alice", "Team A", "Walrus"⟩, 0⟩,
     ⟨⟨2, "Bob", "Team B", "Walrus"⟩, 100⟩] rfl).1
